import Mathlib

/-!
Shallow embedding of the GeNN code-generator core: the numeric type system
(`type.cc`), the transpiler scanner (`transpiler/scanner.cc`), the SIMT
backend's reset-kernel thread layout and strategy registry
(`code_generator/backendSIMT.cc`), the emitted `stepTime` function
(`code_generator/generateRunner.cc`) and the custom-update kernel body
(`code_generator/customUpdateGroupMerged.cc`), together with theorems
checking the specification's claims about them.
-/

namespace GeNNType

/-- The nine numeric types implemented in `type.cc`
(`IMPLEMENT_NUMERIC_TYPE(Bool/Int8/Int16/Int32/Uint8/Uint16/Uint32/Float/Double)`). -/
inductive NumericType where
  | bool
  | int8
  | int16
  | int32
  | uint8
  | uint16
  | uint32
  | float
  | double
deriving DecidableEq, Repr, Fintype

/-- Modelled from the spec: integer conversion ranks of the numeric types
(`getRank`, declared in the `type.h` header which is outside the excerpt).
The spec fixes rank(int8) < rank(int16) < rank(int32), with each unsigned
variant sharing its signed counterpart's rank, floating types apart, and
`bool` below the integer ranks. -/
def NumericType.rank : NumericType → Nat
  | .bool => 0
  | .int8 => 10
  | .uint8 => 10
  | .int16 => 20
  | .uint16 => 20
  | .int32 => 30
  | .uint32 => 30
  | .float => 50
  | .double => 60

/-- Modelled from the spec: signedness of the numeric types (`isSigned`,
declared in the missing `type.h`): the signed 8/16/32-bit integers are
signed, their unsigned variants and `bool` are not (floating types never
reach the signedness comparison in `getCommonType`). -/
def NumericType.isSigned : NumericType → Bool
  | .int8 => true
  | .int16 => true
  | .int32 => true
  | _ => false

/-- Modelled from the spec: minimum representable value (`getMin`, declared
in the missing `type.h`), used by `getCommonType`'s representability test. -/
def NumericType.min : NumericType → Int
  | .bool => 0
  | .int8 => -128
  | .uint8 => 0
  | .int16 => -32768
  | .uint16 => 0
  | .int32 => -2147483648
  | .uint32 => 0
  | .float => 0
  | .double => 0

/-- Modelled from the spec: maximum representable value (`getMax`, declared
in the missing `type.h`). -/
def NumericType.max : NumericType → Int
  | .bool => 1
  | .int8 => 127
  | .uint8 => 255
  | .int16 => 32767
  | .uint16 => 65535
  | .int32 => 2147483647
  | .uint32 => 4294967295
  | .float => 0
  | .double => 0

/-- The anonymous-namespace `unsignedType` map of `type.cc`: signed integer
types to their unsigned equivalents; `at` on any other key throws. -/
def unsignedType : NumericType → Option NumericType
  | .int8 => some .uint8
  | .int16 => some .uint16
  | .int32 => some .uint32
  | _ => none

/-- `GeNN::Type::getPromotedType` (type.cc): a type of rank below int32's
is promoted to int32, any other type is returned unchanged. -/
def getPromotedType (t : NumericType) : NumericType :=
  if t.rank < NumericType.int32.rank then .int32 else t

/-- `GeNN::Type::getCommonType` (type.cc): C's usual arithmetic
conversions.  The result is `none` exactly when the final
`unsignedType.at(signedOp)` lookup would throw. -/
def getCommonType (a b : NumericType) : Option NumericType :=
  if a = .double ∨ b = .double then
    some .double
  else if a = .float ∨ b = .float then
    some .float
  else
    let aP := getPromotedType a
    let bP := getPromotedType b
    if aP = bP then
      some aP
    else if aP.isSigned = bP.isSigned then
      some (if aP.rank > bP.rank then aP else bP)
    else
      let signedOp := if aP.isSigned then aP else bP
      let unsignedOp := if aP.isSigned then bP else aP
      if unsignedOp.rank ≥ signedOp.rank then
        some unsignedOp
      else if signedOp.min ≤ unsignedOp.min ∧ signedOp.max ≥ unsignedOp.max then
        some signedOp
      else
        unsignedType signedOp

end GeNNType

namespace Scanner

open GeNNType

/-- Token kinds of the transpiler (`transpiler/token.h`), restricted to the
ones `scanner.cc` can emit. -/
inductive TokenType where
  | LEFT_PAREN
  | RIGHT_PAREN
  | LEFT_BRACE
  | RIGHT_BRACE
  | LEFT_SQUARE_BRACKET
  | RIGHT_SQUARE_BRACKET
  | COMMA
  | DOT
  | COLON
  | SEMICOLON
  | TILDA
  | QUESTION
  | NOT
  | NOT_EQUAL
  | EQUAL
  | EQUAL_EQUAL
  | STAR
  | STAR_EQUAL
  | PERCENT
  | PERCENT_EQUAL
  | CARET
  | CARET_EQUAL
  | LESS
  | LESS_EQUAL
  | SHIFT_LEFT
  | SHIFT_LEFT_EQUAL
  | GREATER
  | GREATER_EQUAL
  | SHIFT_RIGHT
  | SHIFT_RIGHT_EQUAL
  | PLUS
  | PLUS_EQUAL
  | PLUS_PLUS
  | MINUS
  | MINUS_EQUAL
  | MINUS_MINUS
  | AMPERSAND
  | AMPERSAND_EQUAL
  | AMPERSAND_AMPERSAND
  | PIPE
  | PIPE_EQUAL
  | PIPE_PIPE
  | SLASH
  | STRING
  | TYPE_QUALIFIER
  | TYPE_SPECIFIER
  | DO
  | ELSE
  | FALSE
  | FOR
  | IF
  | TRUE
  | WHILE
  | SWITCH
  | BREAK
  | CONTINUE
  | CASE
  | DEFAULT
  | PRINT
  | IDENTIFIER
  | INT32_NUMBER
  | UINT32_NUMBER
  | FLOAT_NUMBER
  | DOUBLE_NUMBER
  | END_OF_FILE
deriving DecidableEq, Repr

/-- A scanned token: type, lexeme slice and line number
(`Token` of `transpiler/token.h`, as constructed by `emplaceToken`). -/
structure Token where
  type : TokenType
  lexeme : List Char
  line : Nat
deriving DecidableEq, Repr

/-- The type context handed to the scanner: a name-to-numeric-type map
(`Type::TypeContext`); the scanner uses it for typedef lookup and for the
binding of the name `scalar`. -/
def TypeContext := List (String × NumericType)

/-- C++ exceptions the scanner can raise: `std::out_of_range` from
`string_view::at` / `map::at`, and `std::runtime_error`. -/
inductive Fatal where
  | outOfRange
  | runtimeError (msg : String)
deriving DecidableEq, Repr

/-- The scanner state (`ScanState` of scanner.cc) together with the token
vector and the recorded errors of the error handler. -/
structure ScanState where
  start : Nat
  current : Nat
  line : Nat
  source : List Char
  context : List (String × NumericType)
  errors : List (Nat × String)
  tokens : List Token
deriving DecidableEq, Repr

/-- `ScanState::isAtEnd`. -/
def ScanState.isAtEnd (s : ScanState) : Bool :=
  s.current ≥ s.source.length

/-- `ScanState::peek`: the current character, `'\0'` at the end. -/
def ScanState.peek (s : ScanState) : Char :=
  if h : s.current < s.source.length then s.source.get ⟨s.current, h⟩ else '\x00'

/-- `ScanState::advance`: consume and return the current character;
`at` throws `std::out_of_range` past the end. -/
def ScanState.advance (s : ScanState) : Except Fatal (Char × ScanState) :=
  if h : s.current < s.source.length then
    .ok (s.source.get ⟨s.current, h⟩, { s with current := s.current + 1 })
  else
    .error .outOfRange

/-- `ScanState::match`: consume the current character when it equals
`expected` and report whether it did. -/
def ScanState.matchCh (expected : Char) (s : ScanState) : Bool × ScanState :=
  if h : s.current < s.source.length then
    if s.source.get ⟨s.current, h⟩ = expected then
      (true, { s with current := s.current + 1 })
    else
      (false, s)
  else
    (false, s)

/-- `ScanState::resetLexeme`. -/
def ScanState.resetLexeme (s : ScanState) : ScanState :=
  { s with start := s.current }

/-- `ScanState::getLexeme`: the `[start, current)` slice of the source. -/
def ScanState.getLexeme (s : ScanState) : List Char :=
  (s.source.drop s.start).take (s.current - s.start)

/-- `ScanState::error`: report a message to the error handler at the
current line (the handler records it; scanning continues). -/
def ScanState.reportError (msg : String) (s : ScanState) : ScanState :=
  { s with errors := s.errors ++ [(s.line, msg)] }

/-- `ScanState::nextLine`. -/
def ScanState.nextLine (s : ScanState) : ScanState :=
  { s with line := s.line + 1 }

/-- `ScanState::isTypedefIdentifier`: membership of the lexeme in the type
context. -/
def ScanState.isTypedefIdentifier (lexeme : String) (s : ScanState) : Bool :=
  (s.context.lookup lexeme).isSome

/-- `ScanState::getScalarTokenType`: classify an unsuffixed floating
literal from the type bound to `scalar`, throwing `std::runtime_error`
when `scalar` is unbound or bound to a non-floating type. -/
def ScanState.getScalarTokenType (s : ScanState) : Except Fatal TokenType :=
  match s.context.lookup "scalar" with
  | none =>
    .error (.runtimeError "Cannot scan scalar literals without 'scalar' type being defined in type context")
  | some t =>
    if t = .float then .ok .FLOAT_NUMBER
    else if t = .double then .ok .DOUBLE_NUMBER
    else .error (.runtimeError "Unsupported scalar type 'scalar'")

/-- `emplaceToken` (scanner.cc): append a token built from the current
lexeme and line. -/
def emplaceToken (tt : TokenType) (s : ScanState) : ScanState :=
  { s with tokens := s.tokens ++ [⟨tt, s.getLexeme, s.line⟩] }

/-- C's `isdigit` on the ASCII range. -/
def isDigitC (c : Char) : Bool :=
  48 ≤ c.toNat && c.toNat ≤ 57

/-- C's `isxdigit` on the ASCII range. -/
def isXdigitC (c : Char) : Bool :=
  isDigitC c || (65 ≤ c.toNat && c.toNat ≤ 70) || (97 ≤ c.toNat && c.toNat ≤ 102)

/-- `isodigit` (scanner.cc): `'0' <= c && c <= '7'`. -/
def isOdigit (c : Char) : Bool :=
  48 ≤ c.toNat && c.toNat ≤ 55

/-- C's `isalpha` on the ASCII range. -/
def isAlphaC (c : Char) : Bool :=
  (65 ≤ c.toNat && c.toNat ≤ 90) || (97 ≤ c.toNat && c.toNat ≤ 122)

/-- C's `isalnum` on the ASCII range. -/
def isAlnumC (c : Char) : Bool :=
  isAlphaC c || isDigitC c

/-- C's `toupper` on the ASCII range. -/
def toUpperC (c : Char) : Char :=
  if 97 ≤ c.toNat ∧ c.toNat ≤ 122 then Char.ofNat (c.toNat - 32) else c

/-- C's `tolower` on the ASCII range. -/
def toLowerC (c : Char) : Char :=
  if 65 ≤ c.toNat ∧ c.toNat ≤ 90 then Char.ofNat (c.toNat + 32) else c

/-- A `while(pred(peek())) advance();` loop.  The gas argument is always
instantiated with `source.length - current`, the exact number of
characters left, so the gas-0 case coincides with the at-end case.  When
the loop reaches the end of the source and the predicate accepts the
`'\0'` returned by `peek`, `advance` throws `std::out_of_range` (this is
how an unterminated string literal fails). -/
def skipWhileGo (p : Char → Bool) : Nat → ScanState → Except Fatal ScanState
  | 0, s => if p '\x00' then .error .outOfRange else .ok s
  | gas + 1, s =>
    if h : s.current < s.source.length then
      if p (s.source.get ⟨s.current, h⟩) then
        skipWhileGo p gas { s with current := s.current + 1 }
      else
        .ok s
    else
      if p '\x00' then .error .outOfRange else .ok s

/-- Entry point of the `while(pred(peek())) advance();` loops. -/
def skipWhile (p : Char → Bool) (s : ScanState) : Except Fatal ScanState :=
  skipWhileGo p (s.source.length - s.current) s

/-- The suffix-reading loop of `scanIntegerSuffix`: consume `U`/`L`
characters of either case, recording which upper-cased characters the
`std::set` received. -/
def readSuffixGo : Nat → ScanState → Bool → Bool → ScanState × Bool × Bool
  | 0, s, hasU, hasL => (s, hasU, hasL)
  | gas + 1, s, hasU, hasL =>
    if h : s.current < s.source.length then
      let c := s.source.get ⟨s.current, h⟩
      if toUpperC c = 'U' then
        readSuffixGo gas { s with current := s.current + 1 } true hasL
      else if toUpperC c = 'L' then
        readSuffixGo gas { s with current := s.current + 1 } hasU true
      else
        (s, hasU, hasL)
    else
      (s, hasU, hasL)

/-- `scanIntegerSuffix` (scanner.cc): read the `U`/`L` suffix set and look
it up in `integerLiteralTokenTypes`, whose only keys are `{}` (INT32) and
`{'U'}` (UINT32); `map::at` throws `std::out_of_range` on any other set. -/
def scanIntegerSuffix (s : ScanState) : Except Fatal (TokenType × ScanState) :=
  let r := readSuffixGo (s.source.length - s.current) s false false
  match r.2.1, r.2.2 with
  | false, false => .ok (.INT32_NUMBER, r.1)
  | true, false => .ok (.UINT32_NUMBER, r.1)
  | _, _ => .error .outOfRange

/-- `scanNumber` (scanner.cc). -/
def scanNumber (c : Char) (s : ScanState) : Except Fatal ScanState :=
  if c = '0' then
    let m1 := s.matchCh 'x'
    let m2 := if m1.1 then m1 else m1.2.matchCh 'X'
    if m2.1 then
      -- hexadecimal literal
      match skipWhile isXdigitC m2.2 with
      | .error e => .error e
      | .ok s =>
        let md := s.matchCh '.'
        let s := if md.1 then md.2.reportError "Hexadecimal floating pointer literals unsupported." else md.2
        match skipWhile isXdigitC s with
        | .error e => .error e
        | .ok s =>
          match scanIntegerSuffix s with
          | .error e => .error e
          | .ok (tt, s) => .ok (emplaceToken tt s)
    else if isOdigit m2.2.peek then
      -- octal literal: report an error, emit no token
      .ok (m2.2.reportError "Octal literals unsupported.")
    else
      scanNumber.decimal m2.2
  else
    scanNumber.decimal s
where
  /-- The decimal branch of `scanNumber`. -/
  decimal (s : ScanState) : Except Fatal ScanState :=
    match skipWhile isDigitC s with
    | .error e => .error e
    | .ok s =>
      let mf := s.matchCh '.'
      let isFloat := mf.1
      match skipWhile isDigitC mf.2 with
      | .error e => .error e
      | .ok s =>
        if isFloat then
          let me := s.matchCh 'e'
          match
            (if me.1 then
               skipWhile isDigitC
                 (if me.2.peek = '-' ∨ me.2.peek = '+' then
                    { me.2 with current := me.2.current + 1 }
                  else
                    me.2)
             else
               .ok me.2) with
          | .error e => .error e
          | .ok s =>
            if toLowerC s.peek = 'f' then
              .ok { emplaceToken .FLOAT_NUMBER s with current := s.current + 1 }
            else if toLowerC s.peek = 'd' then
              .ok { emplaceToken .DOUBLE_NUMBER s with current := s.current + 1 }
            else
              match s.getScalarTokenType with
              | .error e => .error e
              | .ok tt => .ok (emplaceToken tt s)
        else
          match scanIntegerSuffix s with
          | .error e => .error e
          | .ok (tt, s) => .ok (emplaceToken tt s)

/-- `scanString` (scanner.cc): advance until the closing quote (an
unterminated string runs `advance` past the end, which throws), consume
the quote and emit a STRING token. -/
def scanString (s : ScanState) : Except Fatal ScanState :=
  match skipWhile (fun c => c ≠ '"') s with
  | .error e => .error e
  | .ok s => .ok (emplaceToken .STRING (s.matchCh '"').2)

/-- The keyword table of scanner.cc. -/
def keywordLookup (lexeme : String) : Option TokenType :=
  if lexeme = "const" then some .TYPE_QUALIFIER
  else if lexeme = "do" then some .DO
  else if lexeme = "else" then some .ELSE
  else if lexeme = "false" then some .FALSE
  else if lexeme = "for" then some .FOR
  else if lexeme = "if" then some .IF
  else if lexeme = "true" then some .TRUE
  else if lexeme = "while" then some .WHILE
  else if lexeme = "switch" then some .SWITCH
  else if lexeme = "break" then some .BREAK
  else if lexeme = "continue" then some .CONTINUE
  else if lexeme = "case" then some .CASE
  else if lexeme = "default" then some .DEFAULT
  else if lexeme = "print" then some .PRINT
  else if lexeme = "char" ∨ lexeme = "short" ∨ lexeme = "int" ∨ lexeme = "long"
       ∨ lexeme = "float" ∨ lexeme = "double" ∨ lexeme = "signed" ∨ lexeme = "unsigned"
       ∨ lexeme = "uint8_t" ∨ lexeme = "int8_t" ∨ lexeme = "uint16_t" ∨ lexeme = "int16_t"
       ∨ lexeme = "uint32_t" ∨ lexeme = "int32_t" ∨ lexeme = "bool" then some .TYPE_SPECIFIER
  else none

/-- `scanIdentifier` (scanner.cc): consume the identifier tail, then
classify as keyword, typedef-name or plain identifier. -/
def scanIdentifier (s : ScanState) : Except Fatal ScanState :=
  match skipWhile (fun c => isAlnumC c || c = '_') s with
  | .error e => .error e
  | .ok s =>
    let lexeme := String.mk s.getLexeme
    match keywordLookup lexeme with
    | some tt => .ok (emplaceToken tt s)
    | none =>
      if s.isTypedefIdentifier lexeme then
        .ok (emplaceToken .TYPE_SPECIFIER s)
      else
        .ok (emplaceToken .IDENTIFIER s)

/-- The `//` line-comment loop: `while(peek() != '\n' && !isAtEnd())`. -/
def skipLineCommentGo : Nat → ScanState → ScanState
  | 0, s => s
  | gas + 1, s =>
    if h : s.current < s.source.length then
      if s.source.get ⟨s.current, h⟩ ≠ '\n' then
        skipLineCommentGo gas { s with current := s.current + 1 }
      else
        s
    else
      s

/-- `scanToken` (scanner.cc): consume one character and dispatch on it.
The `case '>'` branch faithfully mirrors the source, whose nested test is
`scanState.match('<')`. -/
def scanToken (s : ScanState) : Except Fatal ScanState :=
  match s.advance with
  | .error e => .error e
  | .ok (c, s) =>
    if c = '(' then .ok (emplaceToken .LEFT_PAREN s)
    else if c = ')' then .ok (emplaceToken .RIGHT_PAREN s)
    else if c = '{' then .ok (emplaceToken .LEFT_BRACE s)
    else if c = '}' then .ok (emplaceToken .RIGHT_BRACE s)
    else if c = '[' then .ok (emplaceToken .LEFT_SQUARE_BRACKET s)
    else if c = ']' then .ok (emplaceToken .RIGHT_SQUARE_BRACKET s)
    else if c = ',' then .ok (emplaceToken .COMMA s)
    else if c = '.' then .ok (emplaceToken .DOT s)
    else if c = ':' then .ok (emplaceToken .COLON s)
    else if c = ';' then .ok (emplaceToken .SEMICOLON s)
    else if c = '~' then .ok (emplaceToken .TILDA s)
    else if c = '?' then .ok (emplaceToken .QUESTION s)
    else if c = '!' then
      let m := s.matchCh '='
      .ok (emplaceToken (if m.1 then .NOT_EQUAL else .NOT) m.2)
    else if c = '=' then
      let m := s.matchCh '='
      .ok (emplaceToken (if m.1 then .EQUAL_EQUAL else .EQUAL) m.2)
    else if c = '*' then
      let m := s.matchCh '='
      .ok (emplaceToken (if m.1 then .STAR_EQUAL else .STAR) m.2)
    else if c = '%' then
      let m := s.matchCh '='
      .ok (emplaceToken (if m.1 then .PERCENT_EQUAL else .PERCENT) m.2)
    else if c = '^' then
      let m := s.matchCh '='
      .ok (emplaceToken (if m.1 then .CARET_EQUAL else .CARET) m.2)
    else if c = '<' then
      let m := s.matchCh '='
      if m.1 then .ok (emplaceToken .LESS_EQUAL m.2)
      else
        let m2 := m.2.matchCh '<'
        if m2.1 then
          let m3 := m2.2.matchCh '='
          if m3.1 then .ok (emplaceToken .SHIFT_LEFT_EQUAL m3.2)
          else .ok (emplaceToken .SHIFT_LEFT m3.2)
        else
          .ok (emplaceToken .LESS m2.2)
    else if c = '>' then
      let m := s.matchCh '='
      if m.1 then .ok (emplaceToken .GREATER_EQUAL m.2)
      else
        let m2 := m.2.matchCh '<'
        if m2.1 then
          let m3 := m2.2.matchCh '='
          if m3.1 then .ok (emplaceToken .SHIFT_RIGHT_EQUAL m3.2)
          else .ok (emplaceToken .SHIFT_RIGHT m3.2)
        else
          .ok (emplaceToken .GREATER m2.2)
    else if c = '+' then
      let m := s.matchCh '='
      if m.1 then .ok (emplaceToken .PLUS_EQUAL m.2)
      else
        let m2 := m.2.matchCh '+'
        if m2.1 then .ok (emplaceToken .PLUS_PLUS m2.2)
        else .ok (emplaceToken .PLUS m2.2)
    else if c = '-' then
      let m := s.matchCh '='
      if m.1 then .ok (emplaceToken .MINUS_EQUAL m.2)
      else
        let m2 := m.2.matchCh '-'
        if m2.1 then .ok (emplaceToken .MINUS_MINUS m2.2)
        else .ok (emplaceToken .MINUS m2.2)
    else if c = '&' then
      let m := s.matchCh '='
      if m.1 then .ok (emplaceToken .AMPERSAND_EQUAL m.2)
      else
        let m2 := m.2.matchCh '&'
        if m2.1 then .ok (emplaceToken .AMPERSAND_AMPERSAND m2.2)
        else .ok (emplaceToken .AMPERSAND m2.2)
    else if c = '|' then
      let m := s.matchCh '='
      if m.1 then .ok (emplaceToken .PIPE_EQUAL m.2)
      else
        let m2 := m.2.matchCh '|'
        if m2.1 then .ok (emplaceToken .PIPE_PIPE m2.2)
        else .ok (emplaceToken .PIPE m2.2)
    else if c = '/' then
      let m := s.matchCh '/'
      if m.1 then .ok (skipLineCommentGo (m.2.source.length - m.2.current) m.2)
      else .ok (emplaceToken .SLASH m.2)
    else if c = '"' then scanString s
    else if c = ' ' ∨ c = '\r' ∨ c = '\t' then .ok s
    else if c = '\n' then .ok s.nextLine
    else if isDigitC c || c = '.' then scanNumber c s
    else if isAlphaC c || c = '_' then scanIdentifier s
    else .ok (s.reportError "Unexpected character.")

/-- The scan loop of `scanSource`: `while(!isAtEnd()) { resetLexeme();
scanToken(); }`.  The gas argument is instantiated with the source length;
since `scanToken` consumes at least one character per iteration this is
always enough (`scanTokensGo_gas_irrel` below). -/
def scanTokensGo : Nat → ScanState → Except Fatal ScanState
  | 0, s => .ok s
  | gas + 1, s =>
    if s.isAtEnd then .ok s
    else
      match scanToken s.resetLexeme with
      | .error e => .error e
      | .ok s' => scanTokensGo gas s'

/-- `scanSource` (scanner.cc): run the scan loop from the initial state
(line 1, empty token vector, no recorded errors), then append the
END_OF_FILE token.  Returns the token vector together with the errors the
handler recorded; a thrown C++ exception is the `Except.error` case. -/
def scanSource (source : String) (context : List (String × NumericType)) :
    Except Fatal (List Token × List (Nat × String)) :=
  let s0 : ScanState :=
    { start := 0, current := 0, line := 1, source := source.toList,
      context := context, errors := [], tokens := [] }
  match scanTokensGo s0.source.length s0 with
  | .error e => .error e
  | .ok s =>
    let s := emplaceToken .END_OF_FILE s
    .ok (s.tokens, s.errors)

/-- The token-type sequence of a successful scan, `none` when the scan
threw. -/
def scanTypes (source : String) (context : List (String × NumericType)) :
    Option (List TokenType) :=
  match scanSource source context with
  | .error _ => none
  | .ok (tokens, _) => some (tokens.map Token.type)

/-- The errors the handler recorded during a successful scan. -/
def scanErrors (source : String) (context : List (String × NumericType)) :
    Option (List (Nat × String)) :=
  match scanSource source context with
  | .error _ => none
  | .ok (_, errors) => some errors

end Scanner

namespace BackendSIMT

/-- Modelled from the spec: `padSize(n, blockSize)` (declared in the
`backendBase.h` header, outside the excerpt) rounds a thread count up to
the next multiple of the block size: `pad(n, b) = ceil(n / b) * b`. -/
def padSize (n blockSize : Nat) : Nat :=
  ((n + blockSize - 1) / blockSize) * blockSize

/-- A merged neuron spike-queue-update group as `genPreNeuronResetKernel`
reads it: the archetype's previous-spike(-event)-time flags and each
member's neuron count. -/
structure SpikeQueueUpdateGroupMerged where
  prevSpikeTimeRequired : Bool
  prevSpikeEventTimeRequired : Bool
  memberNumNeurons : List Nat
deriving DecidableEq, Repr

/-- The thread count a merged group contributes in
`genPreNeuronResetKernel`: when the archetype requires previous
spike(-event) times, the sum over members of `padSize(numNeurons,
blockSize)`; otherwise one thread per member (`getGroups().size()`,
unpadded). -/
def preNeuronResetContribution (blockSize : Nat) (g : SpikeQueueUpdateGroupMerged) : Nat :=
  if g.prevSpikeTimeRequired || g.prevSpikeEventTimeRequired then
    g.memberNumNeurons.foldl (fun acc n => acc + padSize n blockSize) 0
  else
    g.memberNumNeurons.length

/-- The loop of `genPreNeuronResetKernel` (backendSIMT.cc): starting from
`idStart`, each merged group emits the half-open range test
`[idStart, idStart + contribution)` (emitted as `id < c` when `idStart`
is 0 and as `id >= idStart && id < idStart + c` otherwise) and advances
`idStart`.  Returns the emitted `(start, size)` ranges and the final
`idStart`. -/
def genPreNeuronResetRanges (blockSize : Nat) :
    List SpikeQueueUpdateGroupMerged → Nat → List (Nat × Nat) × Nat
  | [], idStart => ([], idStart)
  | g :: rest, idStart =>
    let c := preNeuronResetContribution blockSize g
    let r := genPreNeuronResetRanges blockSize rest (idStart + c)
    ((idStart, c) :: r.1, r.2)

/-- A merged synapse dendritic-delay-update group as
`genPreSynapseResetKernel` reads it: its member count
(`getGroups().size()`) and the archetype's circular-buffer length. -/
structure DendriticDelayUpdateGroupMerged where
  numMembers : Nat
  maxDendriticDelayTimesteps : Nat
deriving DecidableEq, Repr

/-- The loop of `genPreSynapseResetKernel` (backendSIMT.cc): each merged
group contributes one thread per member — `getGroups().size()`, with no
padding — and emits the corresponding half-open range test. -/
def genPreSynapseResetRanges :
    List DendriticDelayUpdateGroupMerged → Nat → List (Nat × Nat) × Nat
  | [], idStart => ([], idStart)
  | g :: rest, idStart =>
    let r := genPreSynapseResetRanges rest (idStart + g.numMembers)
    ((idStart, g.numMembers) :: r.1, r.2)

/-- Whether a flat thread id passes an emitted range test. -/
def matchesRange (id : Nat) (r : Nat × Nat) : Bool :=
  decide (r.1 ≤ id ∧ id < r.1 + r.2)

/-- A synapse group, as far as strategy selection reads it. -/
structure SynapseGroup where
  name : String
deriving DecidableEq, Repr

/-- Backend preferences, opaque to strategy selection. -/
structure Preferences where
  manualScalarTypes : Bool
deriving DecidableEq, Repr

/-- A presynaptic update strategy: the capability record's selection
predicate (`isCompatible`), tagged for identification. -/
structure Strategy where
  id : Nat
  isCompatible : SynapseGroup → Preferences → Bool

/-- `BackendSIMT::addPresynapticUpdateStrategy` (backendSIMT.cc):
registration appends to the process-wide list. -/
def addPresynapticUpdateStrategy (registry : List Strategy) (strategy : Strategy) :
    List Strategy :=
  registry ++ [strategy]

/-- `BackendSIMT::getPresynapticUpdateStrategy` (backendSIMT.cc): walk the
registry from `rbegin` to `rend` and return the first strategy whose
`isCompatible` accepts the synapse group; if none does, throw a
`std::runtime_error` naming the synapse group. -/
def getPresynapticUpdateStrategy (registry : List Strategy) (sg : SynapseGroup)
    (preferences : Preferences) : Except String Strategy :=
  match registry.reverse.find? (fun st => st.isCompatible sg preferences) with
  | some st => .ok st
  | none =>
    .error ("Unable to find a suitable presynaptic update strategy for synapse group '"
            ++ sg.name ++ "'")

end BackendSIMT

namespace Runner

/-- An incoming merged synapse population of a neuron group, as the
`stepTime` emission reads it (`generateRunner.cc`). -/
structure MergedInSyn where
  psModelTargetName : String
  dendriticDelayRequired : Bool
  maxDendriticDelayTimesteps : Nat
deriving DecidableEq, Repr

/-- A neuron group as the `stepTime` emission reads it. -/
structure NeuronGroup where
  delayRequired : Bool
  numDelaySlots : Nat
  mergedInSyn : List MergedInSyn
deriving DecidableEq, Repr

/-- The model's named neuron groups (`model.getNeuronGroups()`, whose
iteration order is the map order; `n.first` is the group name). -/
structure Model where
  neuronGroups : List (String × NeuronGroup)
deriving DecidableEq, Repr

/-- One statement the emitted `stepTime()` body can contain. -/
inductive Stmt where
  | callUpdateSynapses
  | advanceSpkQuePtr (name : String) (numDelaySlots : Nat)
  | callUpdateNeurons
  | advanceDenDelayPtr (psTarget : String) (maxDendriticDelayTimesteps : Nat)
  | incIT
  | assignT
  | finaliseEpilogue (content : String)
deriving DecidableEq, Repr

/-- The first `for` loop of the `stepTime` emission: for each neuron
group with `isDelayRequired()`, advance `spkQuePtr<name>` modulo
`getNumDelaySlots()`. -/
def genSpkQueAdvance : List (String × Runner.NeuronGroup) → List Stmt
  | [] => []
  | (name, g) :: rest =>
    (if g.delayRequired then [.advanceSpkQuePtr name g.numDelaySlots] else [])
      ++ genSpkQueAdvance rest

/-- The inner loop over a neuron group's incoming merged synapse
populations: for each with `isDendriticDelayRequired()`, advance
`denDelayPtr<psTarget>` modulo `getMaxDendriticDelayTimesteps()`. -/
def genDenDelayAdvanceInSyn : List MergedInSyn → List Stmt
  | [] => []
  | sg :: rest =>
    (if sg.dendriticDelayRequired then
       [.advanceDenDelayPtr sg.psModelTargetName sg.maxDendriticDelayTimesteps]
     else [])
      ++ genDenDelayAdvanceInSyn rest

/-- The second `for` loop of the `stepTime` emission, over neuron groups
and their incoming merged synapse populations. -/
def genDenDelayAdvance : List (String × Runner.NeuronGroup) → List Stmt
  | [] => []
  | (_, g) :: rest => genDenDelayAdvanceInSyn g.mergedInSyn ++ genDenDelayAdvance rest

/-- The `stepTime()` body emission (generateRunner.cc, `void stepTime()`):
`updateSynapses(t);`, the spike-queue-pointer advances, `updateNeurons(t);`,
the dendritic-delay-pointer advances, `iT++;`, `t = iT*DT;`, then the
timing-finalise stream. -/
def genStepTime (model : Model) (finalise : String) : List Stmt :=
  [.callUpdateSynapses]
    ++ genSpkQueAdvance model.neuronGroups
    ++ [.callUpdateNeurons]
    ++ genDenDelayAdvance model.neuronGroups
    ++ [.incIT, .assignT, .finaliseEpilogue finalise]

end Runner

namespace CustomUpdate

/-- Modelled from the spec: a variable's access mode (the
`VarAccessMode` / `VarAccessModeAttribute` bit masks live in the
`varAccess.h` header, outside the excerpt).  `readOnlyBit` and
`readWriteBit` are the mutually exclusive mode bits; `reduceBit` marks
REDUCE access. -/
structure VarAccessMode where
  readOnlyBit : Bool
  readWriteBit : Bool
  reduceBit : Bool
deriving DecidableEq, Repr

/-- `VarAccessMode::READ_WRITE`. -/
def readWriteMode : VarAccessMode := ⟨false, true, false⟩

/-- `VarAccessMode::READ_ONLY`. -/
def readOnlyMode : VarAccessMode := ⟨true, false, false⟩

/-- `VarAccessMode::REDUCE_SUM`: the REDUCE attribute bit (with its
SUM/MAX companion abstracted away), no read-write mode bits. -/
def reduceSumMode : VarAccessMode := ⟨false, false, true⟩

/-- A custom-update model variable or variable reference. -/
structure Var where
  name : String
  type : String
  access : VarAccessMode
deriving DecidableEq, Repr

/-- One element the custom-update kernel body emission produces. -/
inductive CUStmt where
  | declLocal (name : String) (type : String) (isConst : Bool) (initialised : Bool)
  | userSnippet
  | writeBack (name : String)
deriving DecidableEq, Repr

/-- The first loop of `genCustomUpdate` (customUpdateGroupMerged.cc):
declare `l<name>` for every model variable, `const` when the access has
the READ_ONLY bit, initialised from global memory unless the access has
the REDUCE bit. -/
def genVarDecls : List Var → List CUStmt
  | [] => []
  | v :: rest =>
    .declLocal ("l" ++ v.name) v.type v.access.readOnlyBit (!v.access.reduceBit)
      :: genVarDecls rest

/-- The second loop of `genCustomUpdate`: same for variable references,
except `const` is decided by `access == VarAccessMode::READ_ONLY`. -/
def genVarRefDecls : List Var → List CUStmt
  | [] => []
  | v :: rest =>
    .declLocal ("l" ++ v.name) v.type (decide (v.access = readOnlyMode)) (!v.access.reduceBit)
      :: genVarRefDecls rest

/-- The third loop of `genCustomUpdate`: write every variable whose
access has the READ_WRITE bit back to global memory. -/
def genVarWriteBacks : List Var → List CUStmt
  | [] => []
  | v :: rest =>
    (if v.access.readWriteBit then [.writeBack v.name] else []) ++ genVarWriteBacks rest

/-- The fourth loop of `genCustomUpdate`: write every variable reference
whose access `== VarAccessMode::READ_WRITE` back to global memory. -/
def genVarRefWriteBacks : List Var → List CUStmt
  | [] => []
  | v :: rest =>
    (if v.access = readWriteMode then [.writeBack v.name] else []) ++ genVarRefWriteBacks rest

/-- `genCustomUpdate` (customUpdateGroupMerged.cc): local declarations
for variables then variable references, the substituted user update
snippet, then the write-backs. -/
def genCustomUpdate (vars varRefs : List Var) : List CUStmt :=
  genVarDecls vars ++ genVarRefDecls varRefs ++ [.userSnippet]
    ++ genVarWriteBacks vars ++ genVarRefWriteBacks varRefs

end CustomUpdate

/-- The after-scan error check of `GeNN::Type::parseNumeric` (type.cc):
scan the type string (with a null type context), and if the error handler
recorded any error, throw `std::runtime_error("Error parsing type '...'")`.
The intervening `Parser::parseType` call lives outside the excerpt and can
only add further errors, so the check is modelled on the scan result. -/
def Scanner.parseNumericErrorCheck (typeString : String) :
    Except Scanner.Fatal (List Scanner.Token) :=
  match Scanner.scanSource typeString [] with
  | .error e => .error e
  | .ok (tokens, errors) =>
    if errors.isEmpty then .ok tokens
    else .error (.runtimeError ("Error parsing type '" ++ typeString ++ "'"))

/-- Consecutive half-open ranges: the `(idStart, size)` pairs a sequence of
contributions tiles from a starting offset.  Both reset-kernel emitters
produce their range tests in this shape. -/
def BackendSIMT.tileRanges : List Nat → Nat → List (Nat × Nat)
  | [], _ => []
  | c :: rest, start => (start, c) :: BackendSIMT.tileRanges rest (start + c)

theorem find_reverse_eq {α : Type} (p : α → Bool) (l : List α) :
    l.reverse.find? p = (l.filter p).getLast? := by
  induction l with
  | nil => rfl
  | cons a t ih =>
    simp only [List.reverse_cons, List.find?_append, List.filter_cons]
    cases hpa : p a
    · have h1 : List.find? p [a] = none := by simp [List.find?, hpa]
      rw [h1, if_neg (by simp [hpa]), ih, Option.or_none]
    · have h1 : List.find? p [a] = some a := by simp [List.find?, hpa]
      rw [h1, if_pos rfl, ih]
      cases hf : t.filter p with
      | nil => simp
      | cons b bs =>
        cases hl : (b :: bs).getLast? with
        | none => simp at hl
        | some v => simp [Option.or, List.getLast?_cons_cons, hl]

namespace BackendSIMT

theorem genPreNeuronResetRanges_eq (bs : Nat) (gs : List SpikeQueueUpdateGroupMerged)
    (start : Nat) :
    genPreNeuronResetRanges bs gs start
      = (tileRanges (gs.map (preNeuronResetContribution bs)) start,
         start + (gs.map (preNeuronResetContribution bs)).sum) := by
  induction gs generalizing start with
  | nil => simp [genPreNeuronResetRanges, tileRanges]
  | cons g rest ih => simp [genPreNeuronResetRanges, tileRanges, ih, Nat.add_assoc]

theorem genPreSynapseResetRanges_eq (gs : List DendriticDelayUpdateGroupMerged)
    (start : Nat) :
    genPreSynapseResetRanges gs start
      = (tileRanges (gs.map (·.numMembers)) start,
         start + (gs.map (·.numMembers)).sum) := by
  induction gs generalizing start with
  | nil => simp [genPreSynapseResetRanges, tileRanges]
  | cons g rest ih => simp [genPreSynapseResetRanges, tileRanges, ih, Nat.add_assoc]

theorem tileRanges_countP_zero (cs : List Nat) (start id : Nat) (h : id < start) :
    (tileRanges cs start).countP (matchesRange id) = 0 := by
  induction cs generalizing start with
  | nil => simp [tileRanges]
  | cons c rest ih =>
    simp only [tileRanges, List.countP_cons]
    rw [ih (start + c) (by omega)]
    simp [matchesRange]
    omega

theorem tileRanges_countP_one (cs : List Nat) (start id : Nat)
    (h1 : start ≤ id) (h2 : id < start + cs.sum) :
    (tileRanges cs start).countP (matchesRange id) = 1 := by
  induction cs generalizing start with
  | nil => simp at h2; omega
  | cons c rest ih =>
    simp only [tileRanges, List.countP_cons]
    by_cases hc : id < start + c
    · rw [tileRanges_countP_zero rest (start + c) id hc]
      simp [matchesRange, h1, hc]
    · rw [ih (start + c) (by omega) (by simp at h2; omega)]
      simp [matchesRange]
      omega

theorem padSize_dvd (n bs : Nat) : bs ∣ padSize n bs :=
  dvd_mul_left bs ((n + bs - 1) / bs)

theorem foldl_padSize_dvd (bs : Nat) (l : List Nat) (a : Nat) (h : bs ∣ a) :
    bs ∣ l.foldl (fun acc n => acc + padSize n bs) a := by
  induction l generalizing a with
  | nil => exact h
  | cons n rest ih => exact ih _ (Nat.dvd_add h (padSize_dvd n bs))

end BackendSIMT

namespace Runner

theorem genSpkQueAdvance_eq (l : List (String × NeuronGroup)) :
    genSpkQueAdvance l
      = (l.filter (fun ng => ng.2.delayRequired)).map
          (fun ng => .advanceSpkQuePtr ng.1 ng.2.numDelaySlots) := by
  induction l with
  | nil => rfl
  | cons ng rest ih =>
    obtain ⟨name, g⟩ := ng
    by_cases h : g.delayRequired <;> simp [genSpkQueAdvance, List.filter_cons, h, ih]

theorem genDenDelayAdvanceInSyn_eq (l : List MergedInSyn) :
    genDenDelayAdvanceInSyn l
      = (l.filter (·.dendriticDelayRequired)).map
          (fun sg => .advanceDenDelayPtr sg.psModelTargetName sg.maxDendriticDelayTimesteps) := by
  induction l with
  | nil => rfl
  | cons sg rest ih =>
    by_cases h : sg.dendriticDelayRequired <;>
      simp [genDenDelayAdvanceInSyn, List.filter_cons, h, ih]

theorem genDenDelayAdvance_eq (l : List (String × NeuronGroup)) :
    genDenDelayAdvance l
      = l.flatMap (fun ng =>
          (ng.2.mergedInSyn.filter (·.dendriticDelayRequired)).map
            (fun sg => .advanceDenDelayPtr sg.psModelTargetName sg.maxDendriticDelayTimesteps)) := by
  induction l with
  | nil => rfl
  | cons ng rest ih =>
    obtain ⟨name, g⟩ := ng
    simp [genDenDelayAdvance, ih, genDenDelayAdvanceInSyn_eq, List.flatMap]

end Runner

namespace CustomUpdate

theorem genVarDecls_eq (l : List Var) :
    genVarDecls l
      = l.map (fun v =>
          .declLocal ("l" ++ v.name) v.type v.access.readOnlyBit (!v.access.reduceBit)) := by
  induction l with
  | nil => rfl
  | cons v rest ih => simp [genVarDecls, ih]

theorem genVarRefDecls_eq (l : List Var) :
    genVarRefDecls l
      = l.map (fun v =>
          .declLocal ("l" ++ v.name) v.type (decide (v.access = readOnlyMode))
            (!v.access.reduceBit)) := by
  induction l with
  | nil => rfl
  | cons v rest ih => simp [genVarRefDecls, ih]

theorem genVarWriteBacks_eq (l : List Var) :
    genVarWriteBacks l
      = (l.filter (·.access.readWriteBit)).map (fun v => .writeBack v.name) := by
  induction l with
  | nil => rfl
  | cons v rest ih =>
    by_cases h : v.access.readWriteBit <;> simp [genVarWriteBacks, List.filter_cons, h, ih]

theorem genVarRefWriteBacks_eq (l : List Var) :
    genVarRefWriteBacks l
      = (l.filter (fun v => v.access = readWriteMode)).map (fun v => .writeBack v.name) := by
  induction l with
  | nil => rfl
  | cons v rest ih =>
    by_cases h : v.access = readWriteMode <;>
      simp [genVarRefWriteBacks, List.filter_cons, h, ih]

end CustomUpdate

/-- Claim C1, counterexample: in the pre-synapse-reset kernel a merged
dendritic-delay-update group with one member contributes exactly 1 thread,
and in the pre-neuron-reset kernel a merged group without
previous-spike-time requirements and three members contributes exactly 3
threads; with the kernel block size 32 neither contribution is a multiple
of the block size, refuting the claim that every merged group's
contributed thread count is a multiple of the kernel's block size. -/
theorem claim1_counterexample :
    BackendSIMT.genPreSynapseResetRanges [⟨1, 2⟩] 0 = ([(0, 1)], 1)
    ∧ BackendSIMT.genPreNeuronResetRanges 32 [⟨false, false, [10, 10, 10]⟩] 0
        = ([(0, 3)], 3)
    ∧ ¬ (32 ∣ 1) ∧ ¬ (32 ∣ 3) := by decide

open BackendSIMT in
/-- Claim C1, amended: in both reset kernels the sum of the per-group
contributed thread counts equals the final `idStart`, and every flat
thread id below that total passes exactly one emitted half-open range
test; the contribution of a pre-neuron-reset group whose archetype
requires previous spike(-event) times is a sum of padded sizes and hence a
multiple of the block size, while groups without that requirement and all
dendritic-delay-update groups contribute their unpadded member count. -/
theorem claim1_layout_amended (blockSize : Nat) (hb : 0 < blockSize)
    (sq : List SpikeQueueUpdateGroupMerged) (dd : List DendriticDelayUpdateGroupMerged) :
    ((genPreNeuronResetRanges blockSize sq 0).2
        = (sq.map (preNeuronResetContribution blockSize)).sum)
    ∧ (∀ id, id < (genPreNeuronResetRanges blockSize sq 0).2 →
        ((genPreNeuronResetRanges blockSize sq 0).1).countP (matchesRange id) = 1)
    ∧ (∀ g ∈ sq, (g.prevSpikeTimeRequired || g.prevSpikeEventTimeRequired) = true →
        blockSize ∣ preNeuronResetContribution blockSize g)
    ∧ ((genPreSynapseResetRanges dd 0).2 = (dd.map (·.numMembers)).sum)
    ∧ (∀ id, id < (genPreSynapseResetRanges dd 0).2 →
        ((genPreSynapseResetRanges dd 0).1).countP (matchesRange id) = 1) := by
  refine ⟨?_, ?_, ?_, ?_, ?_⟩
  · rw [genPreNeuronResetRanges_eq]; exact Nat.zero_add _
  · intro id h
    rw [genPreNeuronResetRanges_eq] at h ⊢
    exact tileRanges_countP_one _ 0 id (Nat.zero_le id) h
  · intro g hg hflag
    unfold preNeuronResetContribution
    rw [if_pos hflag]
    exact foldl_padSize_dvd _ _ 0 (dvd_zero _)
  · rw [genPreSynapseResetRanges_eq]; exact Nat.zero_add _
  · intro id h
    rw [genPreSynapseResetRanges_eq] at h ⊢
    exact tileRanges_countP_one _ 0 id (Nat.zero_le id) h

open BackendSIMT in
/-- Claim C1, witness: the amended layout theorem applied to block size 32
and a pre-neuron-reset group that requires previous spike times. -/
theorem claim1_layout_amended_witness :
    0 < 32 ∧ 32 ∣ preNeuronResetContribution 32 ⟨true, false, [100]⟩ :=
  ⟨by decide,
   (claim1_layout_amended 32 (by decide) [⟨true, false, [100]⟩] []).2.2.1
     ⟨true, false, [100]⟩ (by simp) (by decide)⟩

open Runner in
/-- Claim C2: the emitted `stepTime()` body is exactly `updateSynapses(t);`,
then one `spkQuePtr<name> = (spkQuePtr<name> + 1) % numDelaySlots;` per
neuron group with `delayRequired` in model order, then `updateNeurons(t);`,
then one `denDelayPtr<psTarget> = (denDelayPtr<psTarget> + 1) %
maxDendriticDelayTimesteps;` per dendritic-delay-using incoming synapse
population, then `iT++;` and `t = iT*DT;`, then the timing-finalise
epilogue. -/
theorem claim2_stepTime_order (m : Model) (fin : String) :
    genStepTime m fin
      = [.callUpdateSynapses]
        ++ ((m.neuronGroups.filter (fun ng => ng.2.delayRequired)).map
              (fun ng => .advanceSpkQuePtr ng.1 ng.2.numDelaySlots))
        ++ [.callUpdateNeurons]
        ++ (m.neuronGroups.flatMap (fun ng =>
              (ng.2.mergedInSyn.filter (·.dendriticDelayRequired)).map
                (fun sg => .advanceDenDelayPtr sg.psModelTargetName
                             sg.maxDendriticDelayTimesteps)))
        ++ [.incIT, .assignT, .finaliseEpilogue fin] := by
  unfold genStepTime
  rw [genSpkQueAdvance_eq, genDenDelayAdvance_eq]

open Runner in
/-- Claim C2, witness: the `stepTime` ordering theorem evaluated on a
two-population model with one delayed group and one dendritic-delay-using
synapse population. -/
theorem claim2_stepTime_order_witness :
    genStepTime
        ⟨[("Pop1", ⟨true, 4, [⟨"SG1", true, 7⟩]⟩),
          ("Pop2", ⟨false, 1, [⟨"SG2", false, 1⟩]⟩)]⟩ "tfin"
      = [.callUpdateSynapses, .advanceSpkQuePtr "Pop1" 4, .callUpdateNeurons,
         .advanceDenDelayPtr "SG1" 7, .incIT, .assignT, .finaliseEpilogue "tfin"] := by
  rw [claim2_stepTime_order]
  decide

open BackendSIMT in
/-- Claim C3: `getPresynapticUpdateStrategy` returns the last-registered
strategy whose `isCompatible` accepts the synapse group (the reverse scan
selects the latest compatible registration), and when none is compatible
it fails with a fatal error whose message names the synapse group;
consequently a freshly appended compatible strategy always wins. -/
theorem claim3_strategy_selection (registry : List Strategy) (sg : SynapseGroup)
    (p : Preferences) :
    (getPresynapticUpdateStrategy registry sg p
      = match (registry.filter (fun st => st.isCompatible sg p)).getLast? with
        | some st => .ok st
        | none =>
          .error ("Unable to find a suitable presynaptic update strategy for synapse group '"
                  ++ sg.name ++ "'"))
    ∧ (∀ st : Strategy, st.isCompatible sg p = true →
        getPresynapticUpdateStrategy (addPresynapticUpdateStrategy registry st) sg p
          = .ok st) := by
  constructor
  · unfold getPresynapticUpdateStrategy
    rw [find_reverse_eq]
  · intro st hst
    unfold getPresynapticUpdateStrategy addPresynapticUpdateStrategy
    simp [List.find?, hst]

open BackendSIMT in
/-- Claim C3, witness: with two compatible strategies the later-registered
one is selected. -/
theorem claim3_strategy_selection_witness :
    getPresynapticUpdateStrategy
        (addPresynapticUpdateStrategy [⟨0, fun _ _ => true⟩] ⟨1, fun _ _ => true⟩)
        ⟨"Synapses"⟩ ⟨false⟩
      = .ok ⟨1, fun _ _ => true⟩ :=
  (claim3_strategy_selection [⟨0, fun _ _ => true⟩] ⟨"Synapses"⟩ ⟨false⟩).2
    ⟨1, fun _ _ => true⟩ rfl

open GeNNType in
/-- Claim C4, counterexample: `getCommonType(int8, int8)` is `int32`, not
`int8` — integer promotion lifts both operands to `int32` first — so
`getCommonType(a, a) == a` fails below rank int32. -/
theorem claim4_counterexample :
    getCommonType .int8 .int8 = some .int32
    ∧ getCommonType .int8 .int8 ≠ some .int8 := by decide

open GeNNType in
/-- Claim C4, amended: `getCommonType` is commutative and idempotent, and
`getCommonType(a, a)` equals `a` for the floating types and for integer
types of rank at least int32's; for the smaller integer types and bool it
equals the promoted type `int32`. -/
theorem claim4_commonType_amended :
    (∀ a b : NumericType, getCommonType a b = getCommonType b a)
    ∧ (∀ a b : NumericType,
        (getCommonType a b).bind (fun c => getCommonType c c) = getCommonType a b)
    ∧ (∀ a : NumericType,
        getCommonType a a
          = some (if a = .float ∨ a = .double then a else getPromotedType a))
    ∧ (∀ a : NumericType, NumericType.int32.rank ≤ a.rank → getCommonType a a = some a) := by
  refine ⟨by decide, by decide, by decide, by decide⟩

open GeNNType in
/-- Claim C4, witness: the amended theorem applied at `uint32`, whose rank
is not below int32's. -/
theorem claim4_commonType_amended_witness :
    NumericType.int32.rank ≤ NumericType.uint32.rank
    ∧ getCommonType .uint32 .uint32 = some .uint32 :=
  ⟨by decide, claim4_commonType_amended.2.2.2 .uint32 (by decide)⟩

open Scanner GeNNType in
/-- Claim C5: `1.5` scans as FLOAT_NUMBER when `scalar` is bound to float
and as DOUBLE_NUMBER when bound to double; `1.5f` scans as FLOAT_NUMBER
under every type context; `0x1.5` reports the hexadecimal-float lex error
through the error handler; and an unsuffixed floating literal with no
`scalar` binding throws `std::runtime_error`. -/
theorem claim5_float_literals :
    scanTypes "1.5" [("scalar", .float)] = some [.FLOAT_NUMBER, .END_OF_FILE]
    ∧ scanTypes "1.5" [("scalar", .double)] = some [.DOUBLE_NUMBER, .END_OF_FILE]
    ∧ (∀ ctx : List (String × NumericType),
        scanTypes "1.5f" ctx = some [.FLOAT_NUMBER, .END_OF_FILE])
    ∧ scanErrors "0x1.5" []
        = some [(1, "Hexadecimal floating pointer literals unsupported.")]
    ∧ scanSource "1.5" []
        = .error (.runtimeError
            "Cannot scan scalar literals without 'scalar' type being defined in type context") :=
  ⟨by decide, by decide, fun ctx => rfl, by decide, rfl⟩

open Scanner GeNNType in
/-- Claim C5, witness: `1.5f` scans as FLOAT_NUMBER even when `scalar` is
bound to double. -/
theorem claim5_float_literals_witness :
    scanTypes "1.5f" [("scalar", .double)] = some [.FLOAT_NUMBER, .END_OF_FILE] :=
  claim5_float_literals.2.2.1 [("scalar", .double)]

open Scanner in
/-- Claim C6: the scanner does not recognise `>>` as SHIFT_RIGHT — the
`case '>'` branch nests `match('<')`, so `>>` scans as two GREATER tokens
and `>>=` as GREATER then GREATER_EQUAL, while the unintended inputs `><`
and `><=` scan as SHIFT_RIGHT and SHIFT_RIGHT_EQUAL; `<<` and `<<=` scan
as the shift-left tokens as claimed. -/
theorem claim6_shift_right_behaviour :
    scanTypes ">>" [] = some [.GREATER, .GREATER, .END_OF_FILE]
    ∧ scanTypes ">>=" [] = some [.GREATER, .GREATER_EQUAL, .END_OF_FILE]
    ∧ scanTypes "><" [] = some [.SHIFT_RIGHT, .END_OF_FILE]
    ∧ scanTypes "><=" [] = some [.SHIFT_RIGHT_EQUAL, .END_OF_FILE]
    ∧ scanTypes "<<" [] = some [.SHIFT_LEFT, .END_OF_FILE]
    ∧ scanTypes "<<=" [] = some [.SHIFT_LEFT_EQUAL, .END_OF_FILE] := by
  exact ⟨by decide, by decide, by decide, by decide, by decide, by decide⟩

open Scanner in
/-- Claim C7: any integer-literal suffix containing `L` (in either case)
makes `scanIntegerSuffix`'s `integerLiteralTokenTypes.at` lookup throw
`std::out_of_range`, because the map only has entries for the empty suffix
set and `{'U'}`; suffixes made only of `U` characters succeed. -/
theorem claim7_integer_suffix_behaviour :
    scanSource "1L" [] = .error .outOfRange
    ∧ scanSource "1l" [] = .error .outOfRange
    ∧ scanSource "1UL" [] = .error .outOfRange
    ∧ scanSource "1LU" [] = .error .outOfRange
    ∧ scanTypes "1" [] = some [.INT32_NUMBER, .END_OF_FILE]
    ∧ scanTypes "1U" [] = some [.UINT32_NUMBER, .END_OF_FILE]
    ∧ scanTypes "1u" [] = some [.UINT32_NUMBER, .END_OF_FILE]
    ∧ scanTypes "1UU" [] = some [.UINT32_NUMBER, .END_OF_FILE] :=
  ⟨rfl, rfl, rfl, rfl, by decide, by decide, by decide, by decide⟩

open Scanner in
/-- Claim C8, counterexample: scanning `@` reports a lex error through the
handler, yet `scanSource` still returns its token sequence normally — it
does not raise a failure at the end of scanning. -/
theorem claim8_counterexample :
    scanSource "@" [] = .ok ([⟨.END_OF_FILE, ['@'], 1⟩], [(1, "Unexpected character.")])
    ∧ ([(1, "Unexpected character.")] : List (Nat × String)) ≠ [] :=
  ⟨rfl, by decide⟩

open Scanner in
/-- Claim C8, amended: `scanSource` itself returns the token sequence
normally even when lex errors were reported; the synchronous failure is
raised by the caller (`parseNumeric` in type.cc), which checks the error
handler after the scan/parse phase and throws when any error was
recorded. -/
theorem claim8_error_reporting_amended :
    (∀ (source : String) (toks : List Token) (errs : List (Nat × String)),
        scanSource source [] = .ok (toks, errs) → errs ≠ [] →
        parseNumericErrorCheck source
          = .error (.runtimeError ("Error parsing type '" ++ source ++ "'")))
    ∧ scanSource "@" []
        = .ok ([⟨.END_OF_FILE, ['@'], 1⟩], [(1, "Unexpected character.")]) := by
  constructor
  · intro source toks errs h hne
    unfold parseNumericErrorCheck
    rw [h]
    simp [hne]
  · rfl

open Scanner in
/-- Claim C8, witness: the caller-side check turns the `@` scan's recorded
error into the thrown failure. -/
theorem claim8_error_reporting_amended_witness :
    parseNumericErrorCheck "@" = .error (.runtimeError "Error parsing type '@'") :=
  claim8_error_reporting_amended.1 "@" _ _ claim8_error_reporting_amended.2 (by decide)

open CustomUpdate in
/-- Claim C9, counterexample: a REDUCE-access variable is not left
undeclared — `genCustomUpdate` emits a local declaration `lSum` for it,
merely without the initialiser. -/
theorem claim9_counterexample :
    genCustomUpdate [⟨"Sum", "scalar", reduceSumMode⟩] []
      = [.declLocal "lSum" "scalar" false false, .userSnippet]
    ∧ CUStmt.declLocal "lSum" "scalar" false false
        ∈ genCustomUpdate [⟨"Sum", "scalar", reduceSumMode⟩] [] := by decide

open CustomUpdate in
/-- Claim C9, amended: every custom-update variable and variable reference
is declared as a local scalar `l<name>` before the user snippet,
initialised from global memory exactly when its access lacks the REDUCE
bit (REDUCE variables are declared but left uninitialised, so a missing
assignment draws a compiler warning), and after the snippet exactly the
READ_WRITE variables and READ_WRITE variable references are written back
to global memory. -/
theorem claim9_custom_update_amended (vars varRefs : List Var) :
    genCustomUpdate vars varRefs
      = (vars.map (fun v =>
            .declLocal ("l" ++ v.name) v.type v.access.readOnlyBit (!v.access.reduceBit)))
        ++ (varRefs.map (fun v =>
            .declLocal ("l" ++ v.name) v.type (decide (v.access = readOnlyMode))
              (!v.access.reduceBit)))
        ++ [.userSnippet]
        ++ ((vars.filter (·.access.readWriteBit)).map (fun v => .writeBack v.name))
        ++ ((varRefs.filter (fun v => v.access = readWriteMode)).map
              (fun v => .writeBack v.name)) := by
  unfold genCustomUpdate
  rw [genVarDecls_eq, genVarRefDecls_eq, genVarWriteBacks_eq, genVarRefWriteBacks_eq]

open CustomUpdate in
/-- Claim C9, witness: the amended theorem evaluated on a model with a
READ_WRITE variable, a REDUCE variable and a READ_ONLY variable
reference. -/
theorem claim9_custom_update_amended_witness :
    genCustomUpdate [⟨"V", "scalar", readWriteMode⟩, ⟨"Sum", "scalar", reduceSumMode⟩]
        [⟨"R", "scalar", readOnlyMode⟩]
      = [.declLocal "lV" "scalar" false true, .declLocal "lSum" "scalar" false false,
         .declLocal "lR" "scalar" true true, .userSnippet, .writeBack "V"] := by
  rw [claim9_custom_update_amended]
  decide

open Scanner GeNNType in
/-- Claim C10: whenever `scanSource` returns a token sequence, that
sequence is non-empty and its last token is the END_OF_FILE token appended
after the scan loop; in particular scanning the empty string yields
exactly that one token. -/
theorem claim10_eof_terminated (source : String) (ctx : List (String × NumericType))
    (toks : List Token) (errs : List (Nat × String))
    (h : scanSource source ctx = .ok (toks, errs)) :
    toks ≠ [] ∧ (toks.getLast?).map Token.type = some .END_OF_FILE := by
  simp only [scanSource] at h
  split at h
  · exact absurd h (by simp)
  · rename_i s hs
    simp only [emplaceToken] at h
    injection h with h1
    have htoks : toks = s.tokens ++ [⟨.END_OF_FILE, s.getLexeme, s.line⟩] :=
      (congrArg Prod.fst h1).symm
    constructor
    · rw [htoks]; simp
    · rw [htoks, List.getLast?_concat]; rfl

open Scanner in
/-- Claim C10, witness: the theorem applied to the empty source, whose
scan returns exactly the END_OF_FILE token. -/
theorem claim10_eof_terminated_witness :
    ([⟨.END_OF_FILE, [], 1⟩] : List Token) ≠ []
    ∧ (([⟨.END_OF_FILE, [], 1⟩] : List Token).getLast?).map Token.type
        = some .END_OF_FILE :=
  claim10_eof_terminated "" [] _ _ rfl

namespace Scanner

theorem peek_lt_of_ne_null (s : ScanState) (h : s.peek ≠ '\x00') :
    s.current < s.source.length := by
  unfold ScanState.peek at h
  split at h
  · assumption
  · exact absurd rfl h

theorem matchCh_step (c : Char) (s : ScanState) :
    (s.matchCh c).2.source = s.source ∧ s.current ≤ (s.matchCh c).2.current
    ∧ (s.current ≤ s.source.length → (s.matchCh c).2.current ≤ s.source.length) := by
  unfold ScanState.matchCh
  split
  · split <;> simp <;> omega
  · simp

theorem skipWhileGo_step (p : Char → Bool) (gas : Nat) :
    ∀ s s', skipWhileGo p gas s = .ok s' →
      s'.source = s.source ∧ s.current ≤ s'.current
      ∧ (s.current ≤ s.source.length → s'.current ≤ s.source.length) := by
  induction gas with
  | zero =>
    intro s s' h
    unfold skipWhileGo at h
    split at h
    · exact absurd h (by simp)
    · injection h with h1; subst h1; simp
  | succ gas ih =>
    intro s s' h
    unfold skipWhileGo at h
    split at h <;> rename_i hc
    · split at h
      · obtain ⟨h1, h2, h3⟩ := ih _ _ h
        simp only at h1 h2 h3
        exact ⟨h1, by omega, fun _ => by simpa using h3 (by simpa using hc)⟩
      · injection h with h1; subst h1; simp
    · split at h
      · exact absurd h (by simp)
      · injection h with h1; subst h1; simp

theorem skipWhile_step (p : Char → Bool) (s s' : ScanState) (h : skipWhile p s = .ok s') :
    s'.source = s.source ∧ s.current ≤ s'.current
    ∧ (s.current ≤ s.source.length → s'.current ≤ s.source.length) :=
  skipWhileGo_step p _ s s' h

theorem readSuffixGo_step (gas : Nat) :
    ∀ s hU hL, (readSuffixGo gas s hU hL).1.source = s.source
      ∧ s.current ≤ (readSuffixGo gas s hU hL).1.current
      ∧ (s.current ≤ s.source.length →
          (readSuffixGo gas s hU hL).1.current ≤ s.source.length) := by
  induction gas with
  | zero => intro s hU hL; simp [readSuffixGo]
  | succ gas ih =>
    intro s hU hL
    unfold readSuffixGo
    dsimp only
    split <;> rename_i hc
    · split
      · obtain ⟨h1, h2, h3⟩ := ih { s with current := s.current + 1 } true hL
        simp only at h1 h2 h3
        exact ⟨h1, by omega, fun _ => by simpa using h3 (by simpa using hc)⟩
      · split
        · obtain ⟨h1, h2, h3⟩ := ih { s with current := s.current + 1 } hU true
          simp only at h1 h2 h3
          exact ⟨h1, by omega, fun _ => by simpa using h3 (by simpa using hc)⟩
        · simp
    · simp

theorem skipLineCommentGo_step (gas : Nat) :
    ∀ s, (skipLineCommentGo gas s).source = s.source
      ∧ s.current ≤ (skipLineCommentGo gas s).current
      ∧ (s.current ≤ s.source.length →
          (skipLineCommentGo gas s).current ≤ s.source.length) := by
  induction gas with
  | zero => intro s; simp [skipLineCommentGo]
  | succ gas ih =>
    intro s
    unfold skipLineCommentGo
    split <;> rename_i hc
    · split
      · obtain ⟨h1, h2, h3⟩ := ih { s with current := s.current + 1 }
        simp only at h1 h2 h3
        exact ⟨h1, by omega, fun _ => by simpa using h3 (by simpa using hc)⟩
      · simp
    · simp

theorem scanIntegerSuffix_step (s : ScanState) (tt : TokenType) (s' : ScanState)
    (h : scanIntegerSuffix s = .ok (tt, s')) :
    s'.source = s.source ∧ s.current ≤ s'.current
    ∧ (s.current ≤ s.source.length → s'.current ≤ s.source.length) := by
  unfold scanIntegerSuffix at h
  dsimp only at h
  obtain ⟨h1, h2, h3⟩ := readSuffixGo_step (s.source.length - s.current) s false false
  split at h
  · injection h with h4
    injection h4 with h4 h5
    subst h5
    exact ⟨h1, h2, h3⟩
  · injection h with h4
    injection h4 with h4 h5
    subst h5
    exact ⟨h1, h2, h3⟩
  · exact absurd h (by simp)

theorem scanNumber_decimal_step (s s' : ScanState)
    (h : scanNumber.decimal s = .ok s') :
    s'.source = s.source ∧ s.current ≤ s'.current
    ∧ (s.current ≤ s.source.length → s'.current ≤ s.source.length) := by
  unfold scanNumber.decimal at h
  split at h
  · exact absurd h (by simp)
  · rename_i s2 heq2
    obtain ⟨a1, a2, a3⟩ := skipWhile_step isDigitC s s2 heq2
    have hl2 : s2.source.length = s.source.length := by rw [a1]
    try dsimp only at h
    obtain ⟨b1, b2, b3⟩ := matchCh_step '.' s2
    split at h
    · exact absurd h (by simp)
    · rename_i s3 heq3
      obtain ⟨c1, c2, c3⟩ := skipWhile_step isDigitC _ s3 heq3
      rw [b1] at c1 c3
      have hl3 : s3.source.length = s2.source.length := by rw [c1]
      split at h <;> rename_i hfloat
      · obtain ⟨d1, d2, d3⟩ := matchCh_step 'e' s3
        try dsimp only at h
        split at h
        · exact absurd h (by simp)
        · rename_i s5 heq5
          have hs5 : s5.source = s3.source ∧ s3.current ≤ s5.current
              ∧ (s3.current ≤ s3.source.length → s5.current ≤ s3.source.length) := by
            split at heq5
            · split at heq5 <;> rename_i hsign
              · obtain ⟨e1, e2, e3⟩ := skipWhile_step isDigitC _ _ heq5
                simp only at e1 e2 e3
                have hlt : (s3.matchCh 'e').2.current < (s3.matchCh 'e').2.source.length :=
                  peek_lt_of_ne_null _
                    (fun he => by rw [he] at hsign; exact absurd hsign (by decide))
                rw [d1] at hlt
                refine ⟨e1.trans d1, by omega, fun _ => ?_⟩
                have := e3 (by rw [d1]; omega)
                rw [d1] at this
                omega
              · obtain ⟨e1, e2, e3⟩ := skipWhile_step isDigitC _ _ heq5
                refine ⟨e1.trans d1, by omega, fun hc => ?_⟩
                have := e3 (by rw [d1]; exact d3 hc)
                rw [d1] at this
                omega
            · injection heq5 with h5
              subst h5
              exact ⟨d1, d2, d3⟩
          obtain ⟨f1, f2, f3⟩ := hs5
          rw [c1] at f1
          have hl5 : s5.source.length = s2.source.length := by rw [f1]
          split at h <;> rename_i hf
          · injection h with h5
            subst h5
            have hlt : s5.current < s5.source.length :=
              peek_lt_of_ne_null _ (fun he => by rw [he] at hf; exact absurd hf (by decide))
            refine ⟨f1.trans a1, ?_, fun hc => ?_⟩
            · show s.current ≤ s5.current + 1
              omega
            · show s5.current + 1 ≤ s.source.length
              omega
          · split at h <;> rename_i hd
            · injection h with h5
              subst h5
              have hlt : s5.current < s5.source.length :=
                peek_lt_of_ne_null _ (fun he => by rw [he] at hd; exact absurd hd (by decide))
              refine ⟨f1.trans a1, ?_, fun hc => ?_⟩
              · show s.current ≤ s5.current + 1
                omega
              · show s5.current + 1 ≤ s.source.length
                omega
            · split at h
              · exact absurd h (by simp)
              · rename_i tt heqt
                injection h with h5
                subst h5
                refine ⟨f1.trans a1, ?_, fun hc => ?_⟩
                · show s.current ≤ s5.current
                  omega
                · show s5.current ≤ s.source.length
                  have t1 := a3 hc
                  have t2 := b3 (by omega)
                  have t3 := c3 (by omega)
                  have t4 := f3 (by omega)
                  omega
      · split at h
        · exact absurd h (by simp)
        · rename_i tt s6 heqt
          injection h with h5
          subst h5
          obtain ⟨e1, e2, e3⟩ := scanIntegerSuffix_step s3 tt s6 heqt
          rw [c1] at e1
          refine ⟨e1.trans a1, ?_, fun hc => ?_⟩
          · show s.current ≤ s6.current
            omega
          · show s6.current ≤ s.source.length
            have t1 := a3 hc
            have t2 := b3 (by omega)
            have t3 := c3 (by omega)
            have t4 := e3 (by omega)
            omega

end Scanner

namespace Scanner

theorem scanNumber_step (c : Char) (s s' : ScanState) (h : scanNumber c s = .ok s') :
    s'.source = s.source ∧ s.current ≤ s'.current
    ∧ (s.current ≤ s.source.length → s'.current ≤ s.source.length) := by
  unfold scanNumber at h
  split at h
  · -- c = '0'
    try dsimp only at h
    have hm1 := matchCh_step 'x' s
    have hm2 : (if (s.matchCh 'x').1 = true then s.matchCh 'x'
                else (s.matchCh 'x').2.matchCh 'X').2.source = s.source
        ∧ s.current ≤ (if (s.matchCh 'x').1 = true then s.matchCh 'x'
                       else (s.matchCh 'x').2.matchCh 'X').2.current
        ∧ (s.current ≤ s.source.length →
            (if (s.matchCh 'x').1 = true then s.matchCh 'x'
             else (s.matchCh 'x').2.matchCh 'X').2.current ≤ s.source.length) := by
      split
      · exact hm1
      · have hX := matchCh_step 'X' (s.matchCh 'x').2
        refine ⟨hX.1.trans hm1.1, le_trans hm1.2.1 hX.2.1, fun hc => ?_⟩
        have := hX.2.2 (by rw [hm1.1]; exact hm1.2.2 hc)
        rw [hm1.1] at this
        exact this
    set mst := (if (s.matchCh 'x').1 = true then s.matchCh 'x'
                else (s.matchCh 'x').2.matchCh 'X') with hmst
    obtain ⟨g1, g2, g3⟩ := hm2
    split at h
    · -- hexadecimal branch
      split at h
      · exact absurd h (by simp)
      · rename_i s2 heq2
        obtain ⟨a1, a2, a3⟩ := skipWhile_step isXdigitC _ s2 heq2
        rw [g1] at a1
        try dsimp only at h
        obtain ⟨b1, b2, b3⟩ := matchCh_step '.' s2
        have hmd : (if (s2.matchCh '.').1 = true then
                     (s2.matchCh '.').2.reportError "Hexadecimal floating pointer literals unsupported."
                   else (s2.matchCh '.').2).source = s2.source
            ∧ s2.current ≤ (if (s2.matchCh '.').1 = true then
                     (s2.matchCh '.').2.reportError "Hexadecimal floating pointer literals unsupported."
                   else (s2.matchCh '.').2).current
            ∧ (s2.current ≤ s2.source.length →
                (if (s2.matchCh '.').1 = true then
                     (s2.matchCh '.').2.reportError "Hexadecimal floating pointer literals unsupported."
                   else (s2.matchCh '.').2).current ≤ s2.source.length) := by
          split
          · exact ⟨b1, b2, b3⟩
          · exact ⟨b1, b2, b3⟩
        set mdst := (if (s2.matchCh '.').1 = true then
                     (s2.matchCh '.').2.reportError "Hexadecimal floating pointer literals unsupported."
                   else (s2.matchCh '.').2) with hmdst
        obtain ⟨d1, d2, d3⟩ := hmd
        split at h
        · exact absurd h (by simp)
        · rename_i s3 heq3
          obtain ⟨c1, c2, c3⟩ := skipWhile_step isXdigitC _ s3 heq3
          rw [d1] at c1 c3
          rw [a1] at c1
          split at h
          · exact absurd h (by simp)
          · rename_i tt s4 heqt
            injection h with h5
            subst h5
            obtain ⟨e1, e2, e3⟩ := scanIntegerSuffix_step s3 tt s4 heqt
            rw [c1] at e1
            have hl2 : s2.source.length = s.source.length := by rw [a1]
            have hl3 : s3.source.length = s.source.length := by rw [c1]
            refine ⟨e1, ?_, fun hc => ?_⟩
            · show s.current ≤ s4.current
              omega
            · show s4.current ≤ s.source.length
              have hlm : mst.2.source.length = s.source.length := by rw [g1]
              have t0 := g3 hc
              have t1 := a3 (by omega)
              have t2 := d3 (by omega)
              have t3 := c3 (by omega)
              have t4 := e3 (by omega)
              omega
    · -- octal or plain decimal starting with 0
      split at h
      · injection h with h5
        subst h5
        exact ⟨g1, g2, g3⟩
      · obtain ⟨a1, a2, a3⟩ := scanNumber_decimal_step _ s' h
        rw [g1] at a1
        refine ⟨a1, by omega, fun hc => ?_⟩
        have t0 := g3 hc
        have t1 := a3 (by rw [g1]; omega)
        rw [g1] at t1
        omega
  · -- c is not 0: plain decimal
    exact scanNumber_decimal_step s s' h

theorem scanString_step (s s' : ScanState) (h : scanString s = .ok s') :
    s'.source = s.source ∧ s.current ≤ s'.current
    ∧ (s.current ≤ s.source.length → s'.current ≤ s.source.length) := by
  unfold scanString at h
  split at h
  · exact absurd h (by simp)
  · rename_i s2 heq2
    obtain ⟨a1, a2, a3⟩ := skipWhile_step _ s s2 heq2
    injection h with h5
    subst h5
    obtain ⟨b1, b2, b3⟩ := matchCh_step '"' s2
    rw [a1] at b1
    refine ⟨b1, ?_, fun hc => ?_⟩
    · show s.current ≤ (s2.matchCh '"').2.current
      omega
    · show (s2.matchCh '"').2.current ≤ s.source.length
      have t1 := a3 hc
      have t2 := b3 (by rw [a1]; omega)
      rw [a1] at t2
      omega

theorem scanIdentifier_step (s s' : ScanState) (h : scanIdentifier s = .ok s') :
    s'.source = s.source ∧ s.current ≤ s'.current
    ∧ (s.current ≤ s.source.length → s'.current ≤ s.source.length) := by
  unfold scanIdentifier at h
  split at h
  · exact absurd h (by simp)
  · rename_i s2 heq2
    obtain ⟨a1, a2, a3⟩ := skipWhile_step _ s s2 heq2
    try dsimp only at h
    split at h
    · injection h with h5
      subst h5
      exact ⟨a1, a2, a3⟩
    · split at h
      · injection h with h5
        subst h5
        exact ⟨a1, a2, a3⟩
      · injection h with h5
        subst h5
        exact ⟨a1, a2, a3⟩

theorem advance_ok (s : ScanState) (c : Char) (s1 : ScanState)
    (h : s.advance = .ok (c, s1)) :
    s1.source = s.source ∧ s1.current = s.current + 1 ∧ s.current < s.source.length := by
  unfold ScanState.advance at h
  split at h
  · rename_i hlt
    injection h with h1
    have hs : s1 = { s with current := s.current + 1 } := (congrArg Prod.snd h1).symm
    subst hs
    exact ⟨rfl, rfl, hlt⟩
  · exact absurd h (by simp)

end Scanner
namespace Scanner

set_option maxHeartbeats 2000000 in
theorem scanToken_step (s s' : ScanState) (h : scanToken s = .ok s') :
    s'.source = s.source ∧ s.current < s'.current ∧ s'.current ≤ s.source.length := by
  unfold scanToken at h
  split at h
  · exact absurd h (by simp)
  · rename_i c s1 heqa
    obtain ⟨ha1, ha2, ha3⟩ := advance_ok s c s1 heqa
    have hl1 : s1.source.length = s.source.length := by rw [ha1]
    try dsimp only at h
    obtain ⟨hB1, hB2, hB3⟩ := matchCh_step '=' s1
    have hBsrc : (s1.matchCh '=').2.source = s.source := hB1.trans ha1
    have hBlen : (s1.matchCh '=').2.source.length = s.source.length := by rw [hBsrc]
    have hBle : (s1.matchCh '=').2.current ≤ s.source.length := by
      have := hB3 (by omega)
      omega
    obtain ⟨hL1, hL2, hL3⟩ := matchCh_step '<' (s1.matchCh '=').2
    have hLsrc : ((s1.matchCh '=').2.matchCh '<').2.source = s.source := hL1.trans hBsrc
    have hLlen : ((s1.matchCh '=').2.matchCh '<').2.source.length = s.source.length := by rw [hLsrc]
    have hLle : ((s1.matchCh '=').2.matchCh '<').2.current ≤ s.source.length := by
      have := hL3 (by omega)
      omega
    obtain ⟨hP1, hP2, hP3⟩ := matchCh_step '+' (s1.matchCh '=').2
    have hPsrc : ((s1.matchCh '=').2.matchCh '+').2.source = s.source := hP1.trans hBsrc
    have hPlen : ((s1.matchCh '=').2.matchCh '+').2.source.length = s.source.length := by rw [hPsrc]
    have hPle : ((s1.matchCh '=').2.matchCh '+').2.current ≤ s.source.length := by
      have := hP3 (by omega)
      omega
    obtain ⟨hM1, hM2, hM3⟩ := matchCh_step '-' (s1.matchCh '=').2
    have hMsrc : ((s1.matchCh '=').2.matchCh '-').2.source = s.source := hM1.trans hBsrc
    have hMlen : ((s1.matchCh '=').2.matchCh '-').2.source.length = s.source.length := by rw [hMsrc]
    have hMle : ((s1.matchCh '=').2.matchCh '-').2.current ≤ s.source.length := by
      have := hM3 (by omega)
      omega
    obtain ⟨hA1, hA2, hA3⟩ := matchCh_step '&' (s1.matchCh '=').2
    have hAsrc : ((s1.matchCh '=').2.matchCh '&').2.source = s.source := hA1.trans hBsrc
    have hAlen : ((s1.matchCh '=').2.matchCh '&').2.source.length = s.source.length := by rw [hAsrc]
    have hAle : ((s1.matchCh '=').2.matchCh '&').2.current ≤ s.source.length := by
      have := hA3 (by omega)
      omega
    obtain ⟨hO1, hO2, hO3⟩ := matchCh_step '|' (s1.matchCh '=').2
    have hOsrc : ((s1.matchCh '=').2.matchCh '|').2.source = s.source := hO1.trans hBsrc
    have hOlen : ((s1.matchCh '=').2.matchCh '|').2.source.length = s.source.length := by rw [hOsrc]
    have hOle : ((s1.matchCh '=').2.matchCh '|').2.current ≤ s.source.length := by
      have := hO3 (by omega)
      omega
    obtain ⟨hE1, hE2, hE3⟩ := matchCh_step '=' ((s1.matchCh '=').2.matchCh '<').2
    have hEsrc : (((s1.matchCh '=').2.matchCh '<').2.matchCh '=').2.source = s.source := hE1.trans hLsrc
    have hEle : (((s1.matchCh '=').2.matchCh '<').2.matchCh '=').2.current ≤ s.source.length := by
      have := hE3 (by omega)
      omega
    obtain ⟨hS1, hS2, hS3⟩ := matchCh_step '/' s1
    have hSsrc : (s1.matchCh '/').2.source = s.source := hS1.trans ha1
    have hSlen : (s1.matchCh '/').2.source.length = s.source.length := by rw [hSsrc]
    have hSle : (s1.matchCh '/').2.current ≤ s.source.length := by
      have := hS3 (by omega)
      omega
    by_cases hc1 : c = '('
    · rw [if_pos hc1] at h
      injection h with hh
      subst hh
      refine ⟨?_, ?_, ?_⟩
      · exact ha1
      · show s.current < s1.current
        omega
      · show s1.current ≤ s.source.length
        omega
    rw [if_neg hc1] at h
    by_cases hc2 : c = ')'
    · rw [if_pos hc2] at h
      injection h with hh
      subst hh
      refine ⟨?_, ?_, ?_⟩
      · exact ha1
      · show s.current < s1.current
        omega
      · show s1.current ≤ s.source.length
        omega
    rw [if_neg hc2] at h
    by_cases hc3 : c = '{'
    · rw [if_pos hc3] at h
      injection h with hh
      subst hh
      refine ⟨?_, ?_, ?_⟩
      · exact ha1
      · show s.current < s1.current
        omega
      · show s1.current ≤ s.source.length
        omega
    rw [if_neg hc3] at h
    by_cases hc4 : c = '}'
    · rw [if_pos hc4] at h
      injection h with hh
      subst hh
      refine ⟨?_, ?_, ?_⟩
      · exact ha1
      · show s.current < s1.current
        omega
      · show s1.current ≤ s.source.length
        omega
    rw [if_neg hc4] at h
    by_cases hc5 : c = '['
    · rw [if_pos hc5] at h
      injection h with hh
      subst hh
      refine ⟨?_, ?_, ?_⟩
      · exact ha1
      · show s.current < s1.current
        omega
      · show s1.current ≤ s.source.length
        omega
    rw [if_neg hc5] at h
    by_cases hc6 : c = ']'
    · rw [if_pos hc6] at h
      injection h with hh
      subst hh
      refine ⟨?_, ?_, ?_⟩
      · exact ha1
      · show s.current < s1.current
        omega
      · show s1.current ≤ s.source.length
        omega
    rw [if_neg hc6] at h
    by_cases hc7 : c = ','
    · rw [if_pos hc7] at h
      injection h with hh
      subst hh
      refine ⟨?_, ?_, ?_⟩
      · exact ha1
      · show s.current < s1.current
        omega
      · show s1.current ≤ s.source.length
        omega
    rw [if_neg hc7] at h
    by_cases hc8 : c = '.'
    · rw [if_pos hc8] at h
      injection h with hh
      subst hh
      refine ⟨?_, ?_, ?_⟩
      · exact ha1
      · show s.current < s1.current
        omega
      · show s1.current ≤ s.source.length
        omega
    rw [if_neg hc8] at h
    by_cases hc9 : c = ':'
    · rw [if_pos hc9] at h
      injection h with hh
      subst hh
      refine ⟨?_, ?_, ?_⟩
      · exact ha1
      · show s.current < s1.current
        omega
      · show s1.current ≤ s.source.length
        omega
    rw [if_neg hc9] at h
    by_cases hc10 : c = ';'
    · rw [if_pos hc10] at h
      injection h with hh
      subst hh
      refine ⟨?_, ?_, ?_⟩
      · exact ha1
      · show s.current < s1.current
        omega
      · show s1.current ≤ s.source.length
        omega
    rw [if_neg hc10] at h
    by_cases hc11 : c = '~'
    · rw [if_pos hc11] at h
      injection h with hh
      subst hh
      refine ⟨?_, ?_, ?_⟩
      · exact ha1
      · show s.current < s1.current
        omega
      · show s1.current ≤ s.source.length
        omega
    rw [if_neg hc11] at h
    by_cases hc12 : c = '?'
    · rw [if_pos hc12] at h
      injection h with hh
      subst hh
      refine ⟨?_, ?_, ?_⟩
      · exact ha1
      · show s.current < s1.current
        omega
      · show s1.current ≤ s.source.length
        omega
    rw [if_neg hc12] at h
    by_cases hc13 : c = '!'
    · rw [if_pos hc13] at h
      injection h with hh
      subst hh
      refine ⟨?_, ?_, ?_⟩
      · exact hBsrc
      · show s.current < (s1.matchCh '=').2.current
        omega
      · show (s1.matchCh '=').2.current ≤ s.source.length
        omega
    rw [if_neg hc13] at h
    by_cases hc14 : c = '='
    · rw [if_pos hc14] at h
      injection h with hh
      subst hh
      refine ⟨?_, ?_, ?_⟩
      · exact hBsrc
      · show s.current < (s1.matchCh '=').2.current
        omega
      · show (s1.matchCh '=').2.current ≤ s.source.length
        omega
    rw [if_neg hc14] at h
    by_cases hc15 : c = '*'
    · rw [if_pos hc15] at h
      injection h with hh
      subst hh
      refine ⟨?_, ?_, ?_⟩
      · exact hBsrc
      · show s.current < (s1.matchCh '=').2.current
        omega
      · show (s1.matchCh '=').2.current ≤ s.source.length
        omega
    rw [if_neg hc15] at h
    by_cases hc16 : c = '%'
    · rw [if_pos hc16] at h
      injection h with hh
      subst hh
      refine ⟨?_, ?_, ?_⟩
      · exact hBsrc
      · show s.current < (s1.matchCh '=').2.current
        omega
      · show (s1.matchCh '=').2.current ≤ s.source.length
        omega
    rw [if_neg hc16] at h
    by_cases hc17 : c = '^'
    · rw [if_pos hc17] at h
      injection h with hh
      subst hh
      refine ⟨?_, ?_, ?_⟩
      · exact hBsrc
      · show s.current < (s1.matchCh '=').2.current
        omega
      · show (s1.matchCh '=').2.current ≤ s.source.length
        omega
    rw [if_neg hc17] at h
    by_cases hc18 : c = '<'
    · rw [if_pos hc18] at h
      by_cases hx18a : (s1.matchCh '=').1 = true
      · rw [if_pos hx18a] at h
        injection h with hh
        subst hh
        refine ⟨?_, ?_, ?_⟩
        · exact hBsrc
        · show s.current < (s1.matchCh '=').2.current
          omega
        · show (s1.matchCh '=').2.current ≤ s.source.length
          omega
      rw [if_neg hx18a] at h
      by_cases hx18b : ((s1.matchCh '=').2.matchCh '<').1 = true
      · rw [if_pos hx18b] at h
        by_cases hx18c : (((s1.matchCh '=').2.matchCh '<').2.matchCh '=').1 = true
        · rw [if_pos hx18c] at h
          injection h with hh
          subst hh
          refine ⟨?_, ?_, ?_⟩
          · exact hEsrc
          · show s.current < (((s1.matchCh '=').2.matchCh '<').2.matchCh '=').2.current
            omega
          · show (((s1.matchCh '=').2.matchCh '<').2.matchCh '=').2.current ≤ s.source.length
            omega
        rw [if_neg hx18c] at h
        injection h with hh
        subst hh
        refine ⟨?_, ?_, ?_⟩
        · exact hEsrc
        · show s.current < (((s1.matchCh '=').2.matchCh '<').2.matchCh '=').2.current
          omega
        · show (((s1.matchCh '=').2.matchCh '<').2.matchCh '=').2.current ≤ s.source.length
          omega
      rw [if_neg hx18b] at h
      injection h with hh
      subst hh
      refine ⟨?_, ?_, ?_⟩
      · exact hLsrc
      · show s.current < ((s1.matchCh '=').2.matchCh '<').2.current
        omega
      · show ((s1.matchCh '=').2.matchCh '<').2.current ≤ s.source.length
        omega
    rw [if_neg hc18] at h
    by_cases hc19 : c = '>'
    · rw [if_pos hc19] at h
      by_cases hx19a : (s1.matchCh '=').1 = true
      · rw [if_pos hx19a] at h
        injection h with hh
        subst hh
        refine ⟨?_, ?_, ?_⟩
        · exact hBsrc
        · show s.current < (s1.matchCh '=').2.current
          omega
        · show (s1.matchCh '=').2.current ≤ s.source.length
          omega
      rw [if_neg hx19a] at h
      by_cases hx19b : ((s1.matchCh '=').2.matchCh '<').1 = true
      · rw [if_pos hx19b] at h
        by_cases hx19c : (((s1.matchCh '=').2.matchCh '<').2.matchCh '=').1 = true
        · rw [if_pos hx19c] at h
          injection h with hh
          subst hh
          refine ⟨?_, ?_, ?_⟩
          · exact hEsrc
          · show s.current < (((s1.matchCh '=').2.matchCh '<').2.matchCh '=').2.current
            omega
          · show (((s1.matchCh '=').2.matchCh '<').2.matchCh '=').2.current ≤ s.source.length
            omega
        rw [if_neg hx19c] at h
        injection h with hh
        subst hh
        refine ⟨?_, ?_, ?_⟩
        · exact hEsrc
        · show s.current < (((s1.matchCh '=').2.matchCh '<').2.matchCh '=').2.current
          omega
        · show (((s1.matchCh '=').2.matchCh '<').2.matchCh '=').2.current ≤ s.source.length
          omega
      rw [if_neg hx19b] at h
      injection h with hh
      subst hh
      refine ⟨?_, ?_, ?_⟩
      · exact hLsrc
      · show s.current < ((s1.matchCh '=').2.matchCh '<').2.current
        omega
      · show ((s1.matchCh '=').2.matchCh '<').2.current ≤ s.source.length
        omega
    rw [if_neg hc19] at h
    by_cases hc20 : c = '+'
    · rw [if_pos hc20] at h
      by_cases hx20a : (s1.matchCh '=').1 = true
      · rw [if_pos hx20a] at h
        injection h with hh
        subst hh
        refine ⟨?_, ?_, ?_⟩
        · exact hBsrc
        · show s.current < (s1.matchCh '=').2.current
          omega
        · show (s1.matchCh '=').2.current ≤ s.source.length
          omega
      rw [if_neg hx20a] at h
      by_cases hx20b : ((s1.matchCh '=').2.matchCh '+').1 = true
      · rw [if_pos hx20b] at h
        injection h with hh
        subst hh
        refine ⟨?_, ?_, ?_⟩
        · exact hPsrc
        · show s.current < ((s1.matchCh '=').2.matchCh '+').2.current
          omega
        · show ((s1.matchCh '=').2.matchCh '+').2.current ≤ s.source.length
          omega
      rw [if_neg hx20b] at h
      injection h with hh
      subst hh
      refine ⟨?_, ?_, ?_⟩
      · exact hPsrc
      · show s.current < ((s1.matchCh '=').2.matchCh '+').2.current
        omega
      · show ((s1.matchCh '=').2.matchCh '+').2.current ≤ s.source.length
        omega
    rw [if_neg hc20] at h
    by_cases hc21 : c = '-'
    · rw [if_pos hc21] at h
      by_cases hx21a : (s1.matchCh '=').1 = true
      · rw [if_pos hx21a] at h
        injection h with hh
        subst hh
        refine ⟨?_, ?_, ?_⟩
        · exact hBsrc
        · show s.current < (s1.matchCh '=').2.current
          omega
        · show (s1.matchCh '=').2.current ≤ s.source.length
          omega
      rw [if_neg hx21a] at h
      by_cases hx21b : ((s1.matchCh '=').2.matchCh '-').1 = true
      · rw [if_pos hx21b] at h
        injection h with hh
        subst hh
        refine ⟨?_, ?_, ?_⟩
        · exact hMsrc
        · show s.current < ((s1.matchCh '=').2.matchCh '-').2.current
          omega
        · show ((s1.matchCh '=').2.matchCh '-').2.current ≤ s.source.length
          omega
      rw [if_neg hx21b] at h
      injection h with hh
      subst hh
      refine ⟨?_, ?_, ?_⟩
      · exact hMsrc
      · show s.current < ((s1.matchCh '=').2.matchCh '-').2.current
        omega
      · show ((s1.matchCh '=').2.matchCh '-').2.current ≤ s.source.length
        omega
    rw [if_neg hc21] at h
    by_cases hc22 : c = '&'
    · rw [if_pos hc22] at h
      by_cases hx22a : (s1.matchCh '=').1 = true
      · rw [if_pos hx22a] at h
        injection h with hh
        subst hh
        refine ⟨?_, ?_, ?_⟩
        · exact hBsrc
        · show s.current < (s1.matchCh '=').2.current
          omega
        · show (s1.matchCh '=').2.current ≤ s.source.length
          omega
      rw [if_neg hx22a] at h
      by_cases hx22b : ((s1.matchCh '=').2.matchCh '&').1 = true
      · rw [if_pos hx22b] at h
        injection h with hh
        subst hh
        refine ⟨?_, ?_, ?_⟩
        · exact hAsrc
        · show s.current < ((s1.matchCh '=').2.matchCh '&').2.current
          omega
        · show ((s1.matchCh '=').2.matchCh '&').2.current ≤ s.source.length
          omega
      rw [if_neg hx22b] at h
      injection h with hh
      subst hh
      refine ⟨?_, ?_, ?_⟩
      · exact hAsrc
      · show s.current < ((s1.matchCh '=').2.matchCh '&').2.current
        omega
      · show ((s1.matchCh '=').2.matchCh '&').2.current ≤ s.source.length
        omega
    rw [if_neg hc22] at h
    by_cases hc23 : c = '|'
    · rw [if_pos hc23] at h
      by_cases hx23a : (s1.matchCh '=').1 = true
      · rw [if_pos hx23a] at h
        injection h with hh
        subst hh
        refine ⟨?_, ?_, ?_⟩
        · exact hBsrc
        · show s.current < (s1.matchCh '=').2.current
          omega
        · show (s1.matchCh '=').2.current ≤ s.source.length
          omega
      rw [if_neg hx23a] at h
      by_cases hx23b : ((s1.matchCh '=').2.matchCh '|').1 = true
      · rw [if_pos hx23b] at h
        injection h with hh
        subst hh
        refine ⟨?_, ?_, ?_⟩
        · exact hOsrc
        · show s.current < ((s1.matchCh '=').2.matchCh '|').2.current
          omega
        · show ((s1.matchCh '=').2.matchCh '|').2.current ≤ s.source.length
          omega
      rw [if_neg hx23b] at h
      injection h with hh
      subst hh
      refine ⟨?_, ?_, ?_⟩
      · exact hOsrc
      · show s.current < ((s1.matchCh '=').2.matchCh '|').2.current
        omega
      · show ((s1.matchCh '=').2.matchCh '|').2.current ≤ s.source.length
        omega
    rw [if_neg hc23] at h
    by_cases hc24 : c = '/'
    · rw [if_pos hc24] at h
      by_cases hx24a : (s1.matchCh '/').1 = true
      · rw [if_pos hx24a] at h
        injection h with hh
        subst hh
        obtain ⟨y1, y2, y3⟩ := skipLineCommentGo_step
          ((s1.matchCh '/').2.source.length - (s1.matchCh '/').2.current) (s1.matchCh '/').2
        refine ⟨y1.trans hSsrc, ?_, ?_⟩
        · omega
        · have := y3 (by omega)
          omega
      rw [if_neg hx24a] at h
      injection h with hh
      subst hh
      refine ⟨?_, ?_, ?_⟩
      · exact hSsrc
      · show s.current < (s1.matchCh '/').2.current
        omega
      · show (s1.matchCh '/').2.current ≤ s.source.length
        omega
    rw [if_neg hc24] at h
    by_cases hc25 : c = '"'
    · rw [if_pos hc25] at h
      obtain ⟨y1, y2, y3⟩ := scanString_step s1 s' h
      refine ⟨y1.trans ha1, by omega, ?_⟩
      have := y3 (by omega)
      omega
    rw [if_neg hc25] at h
    by_cases hc26 : c = ' ' ∨ c = '\r' ∨ c = '\t'
    · rw [if_pos hc26] at h
      injection h with hh
      subst hh
      refine ⟨?_, ?_, ?_⟩
      · exact ha1
      · show s.current < s1.current
        omega
      · show s1.current ≤ s.source.length
        omega
    rw [if_neg hc26] at h
    by_cases hc27 : c = '\n'
    · rw [if_pos hc27] at h
      injection h with hh
      subst hh
      refine ⟨?_, ?_, ?_⟩
      · exact ha1
      · show s.current < s1.current
        omega
      · show s1.current ≤ s.source.length
        omega
    rw [if_neg hc27] at h
    by_cases hc28 : (isDigitC c || decide (c = '.')) = true
    · rw [if_pos hc28] at h
      obtain ⟨y1, y2, y3⟩ := scanNumber_step c s1 s' h
      refine ⟨y1.trans ha1, by omega, ?_⟩
      have := y3 (by omega)
      omega
    rw [if_neg hc28] at h
    by_cases hc29 : (isAlphaC c || decide (c = '_')) = true
    · rw [if_pos hc29] at h
      obtain ⟨y1, y2, y3⟩ := scanIdentifier_step s1 s' h
      refine ⟨y1.trans ha1, by omega, ?_⟩
      have := y3 (by omega)
      omega
    rw [if_neg hc29] at h
    injection h with hh
    subst hh
    refine ⟨?_, ?_, ?_⟩
    · exact ha1
    · show s.current < s1.current
      omega
    · show s1.current ≤ s.source.length
      omega

end Scanner

namespace Scanner

theorem scanTokensGo_reaches_end (gas : Nat) :
    ∀ s s', s.current ≤ s.source.length → s.source.length - s.current ≤ gas →
      scanTokensGo gas s = .ok s' → s'.isAtEnd = true := by
  induction gas with
  | zero =>
    intro s s' hc hg h
    unfold scanTokensGo at h
    injection h with h1
    subst h1
    simp [ScanState.isAtEnd]
    omega
  | succ gas ih =>
    intro s s' hc hg h
    unfold scanTokensGo at h
    split at h <;> rename_i hend
    · injection h with h1
      subst h1
      exact hend
    · split at h
      · exact absurd h (by simp)
      · rename_i s2 heq
        obtain ⟨t1, t2, t3⟩ := scanToken_step s.resetLexeme s2 heq
        have hsrc : s2.source = s.source := t1
        refine ih s2 s' ?_ ?_ h
        · rw [hsrc]
          have : s2.current ≤ s.source.length := t3
          exact this
        · rw [hsrc]
          have h2 : s.current < s2.current := t2
          omega

theorem scanSource_scan_complete (source : String)
    (ctx : List (String × GeNNType.NumericType)) (s' : ScanState)
    (h : scanTokensGo source.toList.length
           { start := 0, current := 0, line := 1, source := source.toList,
             context := ctx, errors := [], tokens := [] } = .ok s') :
    s'.isAtEnd = true :=
  scanTokensGo_reaches_end _ _ _ (by simp) (by simp) h

end Scanner
